import Mathlib

/-!
Verification development for the game-theory teaching platform backend
(`backend/main.py`, `backend/models.py`, `backend/session_manager.py`,
`backend/game_factory.py`).  Python dictionaries are embedded as
association lists with Python's update/lookup/delete semantics; Python
floats are embedded as rationals; fallible handler code returns
`Except String`.  Components of the `game_engine` package that the
backend imports but whose source is not part of the repository snapshot
(NormalFormGame, CournotGame, NashSolver, the repeated-game simulator,
the strategy classes and the template registry) are modelled from the
specification and carry a doc comment saying so.

The file is laid out as definitions first, then the supporting lemmas
and the claim theorems.
-/

namespace GameTheoryBackend

/-! ## Python dictionary embedding -/

/-- Python `dict` lookup (`d.get(k)` / `d[k]`): first binding for the key,
if any.  Association lists built only through `dget`/`dset`/`ddel` have
at most one binding per key, matching Python dictionaries. -/
def dget {α β : Type} [DecidableEq α] : List (α × β) → α → Option β
  | [], _ => none
  | p :: rest, key => if p.1 = key then some p.2 else dget rest key

/-- Python `dict` assignment `d[k] = v`: updates the existing binding in
place, or appends a new binding at the end, as Python insertion order does. -/
def dset {α β : Type} [DecidableEq α] (l : List (α × β)) (k : α) (v : β) :
    List (α × β) :=
  if (dget l k).isSome then l.map (fun p => if p.1 = k then (k, v) else p)
  else l ++ [(k, v)]

/-- Python `del d[k]`: removes the binding for the key. -/
def ddel {α β : Type} [DecidableEq α] (l : List (α × β)) (k : α) :
    List (α × β) :=
  l.filter (fun p => p.1 ≠ k)

/-- Python `int(s)` on a player-id string, modelled on the canonical
serialized domain: a non-empty string of ASCII decimal digits (leading
zeros allowed) parses to its value, exactly as `int` does; everything
else yields `none`, as `int` raises ValueError on "x" or "".  Python's
`int` also accepts spellings outside this domain (surrounding
whitespace, a sign, underscores, Unicode digits), so theorems about key
parsing are conditioned on a successful parse — where the model and
`int()` agree — rather than asserting which strings fail. -/
def pyParseNat (s : String) : Option Nat :=
  if s.length ≠ 0 ∧ s.data.all (fun c => c.isDigit) then
    some (s.data.foldl (fun acc c => acc * 10 + (c.toNat - 48)) 0)
  else none

/-- Decimal rendering of a player id, Python `str(i)` for a non-negative
int. -/
def natKey (n : Nat) : String := toString n

/-- Python `sorted` over a list of integers: ascending order. -/
def pySorted (l : List Nat) : List Nat :=
  List.insertionSort (· ≤ ·) l

/-- Character-level worker for Python `key.split(",")`. -/
def splitCommaChars : List Char → List (List Char)
  | [] => [[]]
  | c :: rest =>
    let r := splitCommaChars rest
    if c = ',' then [] :: r
    else
      match r with
      | [] => [[c]]
      | g :: gs => (c :: g) :: gs

/-- Python `key.split(",")`: splits at every comma, keeping empty pieces,
and yields a single piece for a comma-free string. -/
def pySplitComma (s : String) : List String :=
  (splitCommaChars s.data).map (fun l => String.mk l)

/-! ## Session manager (`backend/session_manager.py`) -/

/-- Session record stored by `SessionManager.create_session`: the dict
`\x7b"game": game, "game_type": game_type, "created_at": None\x7d`.  The
manager is polymorphic in the stored game value, as the Python store
holds arbitrary game objects. -/
structure SessionData (γ : Type) where
  game : Option γ
  game_type : Option String
  created_at : Option Unit
  deriving DecidableEq

/-- SessionManager: `self.sessions` is a dict from session id to session
data. -/
structure SessionManager (γ : Type) where
  sessions : List (String × SessionData γ)
  deriving DecidableEq

/-- Fresh manager (`SessionManager.__init__`). -/
def SessionManager.empty (γ : Type) : SessionManager γ := ⟨[]⟩

/-- SessionManager.create_session.  `session_id` is the optional explicit
id; `fresh` is the uuid4 draw used when it is absent (the random source is
passed in explicitly to keep the embedding pure). -/
def SessionManager.create_session {γ : Type} (m : SessionManager γ)
    (session_id : Option String) (fresh : String)
    (game : Option γ) (game_type : Option String) :
    String × SessionManager γ :=
  let sid := session_id.getD fresh
  (sid, ⟨dset m.sessions sid ⟨game, game_type, none⟩⟩)

/-- SessionManager.get_session: `self.sessions.get(session_id)`. -/
def SessionManager.get_session {γ : Type} (m : SessionManager γ)
    (session_id : String) : Option (SessionData γ) :=
  dget m.sessions session_id

/-- SessionManager.delete_session: returns True and deletes when present,
False otherwise. -/
def SessionManager.delete_session {γ : Type} (m : SessionManager γ)
    (session_id : String) : Bool × SessionManager γ :=
  if (dget m.sessions session_id).isSome then
    (true, ⟨ddel m.sessions session_id⟩)
  else (false, m)

/-! ## Game-engine data model -/

/-- Strategy variants registered in `STRATEGY_MAP`
(`backend/game_factory.py`).  The strategy classes live in
`game_engine.strategies`, outside the snapshot; the specification fixes a
closed variant set, so an instance is identified by its variant. -/
inductive Strategy where
  | alwaysCooperate
  | alwaysDefect
  | titForTat
  | grimTrigger
  | randomStrategy
  | dummy
  deriving DecidableEq, Repr

/-- History entry: the played action profile (ascending player-id order)
together with the per-player payoffs of that round. -/
abbrev HistoryEntry := List String × List (Nat × ℚ)

/-- Modelled from the spec: `Strategy.choose` of the missing
`game_engine.strategies` classes, section 4.2.  A strategy maps (own
player id, prior history) to an action; the cooperative and defect action
tokens are "C" and "D" as in the spec's payoff-table notation, and the
two-player opponent of player `pid` occupies profile position `1 - pid`.
`legal` is the player's legal action list and `rand` the draw of
RandomStrategy's injected random source for this call.  The `dummy`
variant is the throwaway `DummyStrategy` the analysis handlers define,
whose `choose` raises NotImplementedError; it yields `none`. -/
def Strategy.choose (s : Strategy) (legal : List String) (rand : Nat)
    (pid : Nat) (history : List HistoryEntry) : Option String :=
  match s with
  | .alwaysCooperate => some "C"
  | .alwaysDefect => some "D"
  | .titForTat =>
      match history.getLast? with
      | none => some "C"
      | some entry => some (entry.1.getD (1 - pid) "C")
  | .grimTrigger =>
      if history.any (fun entry => entry.1.getD (1 - pid) "C" = "D") then
        some "D"
      else some "C"
  | .randomStrategy => some (legal.getD (rand % legal.length) "C")
  | .dummy => none

/-- Player: integer id, display name, optional bound strategy
(`game_engine.core.Player`; the spec's data model, section 3). -/
structure Player where
  id : Nat
  name : String
  strategy : Option Strategy
  deriving DecidableEq

/-- Modelled from the spec: `NormalFormGame` of the missing
`game_engine.normal_form` — players, per-player action sets, full payoff
table and append-only round history (spec sections 2 and 3). -/
structure NormalFormGame where
  players : List Player
  actions : List (Nat × List String)
  payoff_matrix : List (List String × List (Nat × ℚ))
  history : List HistoryEntry
  deriving DecidableEq

/-- Modelled from the spec: `CournotGame` of the missing
`game_engine.cournot` — players, linear demand parameters and per-player
marginal cost (spec sections 2 and 3). -/
structure CournotGame where
  players : List Player
  demand_intercept : ℚ
  demand_slope : ℚ
  marginal_costs : List (Nat × ℚ)
  deriving DecidableEq

/-- Game instance as returned by the factory: the `game_engine` `Game`
base class covers normal-form games, Cournot games and the auction
template (whose internals no claim touches; its construction parameters
are recorded). -/
inductive GameInst where
  | normalForm (g : NormalFormGame)
  | cournot (g : CournotGame)
  | auction (player_names : Option (List String))
      (private_values : Option (List ℚ)) (num_players : Nat)
  deriving DecidableEq

/-! ## Game templates (`game_engine.templates`, modelled from the spec) -/

/-- Modelled from the spec: the default Prisoners' Dilemma payoff table,
CC=(3,3), CD=(0,5), DC=(5,0), DD=(1,1) (spec section 8). -/
def pdDefaultTable : List (List String × List (Nat × ℚ)) :=
  [ (["C", "C"], [(0, 3), (1, 3)]),
    (["C", "D"], [(0, 0), (1, 5)]),
    (["D", "C"], [(0, 5), (1, 0)]),
    (["D", "D"], [(0, 1), (1, 1)]) ]

/-- Modelled from the spec: `create_prisoners_dilemma` of the missing
`game_engine.templates` — a two-player normal-form game with actions
C/D per player, the default PD table unless `payoffs` overrides it, and
the optional strategies bound positionally. -/
def create_prisoners_dilemma (player_names : Option (List String))
    (strategies : Option (List Strategy))
    (payoffs : Option (List (List String × List (Nat × ℚ)))) :
    NormalFormGame :=
  let names := player_names.getD ["Player 1", "Player 2"]
  let stratAt : Nat → Option Strategy := fun i =>
    match strategies with
    | none => none
    | some l => l.get? i
  { players :=
      [ ⟨0, names.getD 0 "Player 1", stratAt 0⟩,
        ⟨1, names.getD 1 "Player 2", stratAt 1⟩ ],
    actions := [(0, ["C", "D"]), (1, ["C", "D"])],
    payoff_matrix := payoffs.getD pdDefaultTable,
    history := [] }

/-- Modelled from the spec: `create_cournot_game` of the missing
`game_engine.templates` — a two-firm Cournot game with the given demand
parameters; the default marginal costs used when none are supplied are
not fixed by the spec (its worked duopoly example uses cost 10 for both
firms) and no claim depends on them. -/
def create_cournot_game (player_names : Option (List String))
    (demand_intercept demand_slope : ℚ)
    (marginal_costs : Option (List (Nat × ℚ))) : CournotGame :=
  let names := player_names.getD ["Firm 1", "Firm 2"]
  { players :=
      [ ⟨0, names.getD 0 "Firm 1", none⟩,
        ⟨1, names.getD 1 "Firm 2", none⟩ ],
    demand_intercept := demand_intercept,
    demand_slope := demand_slope,
    marginal_costs := marginal_costs.getD [(0, 10), (1, 10)] }

/-- Modelled from the spec: the key set of the registry
`AVAILABLE_GAMES` of the missing `game_engine.templates`.  The factory
dispatches on exactly the game types `prisoners_dilemma`, `cournot` and
`auction`, so the registry is modelled with those keys. -/
def AVAILABLE_GAMES : List String := ["prisoners_dilemma", "cournot", "auction"]

/-! ## Game factory (`backend/game_factory.py`) -/

/-- STRATEGY_MAP: strategy name to class. -/
def STRATEGY_MAP : List (String × Strategy) :=
  [ ("AlwaysCooperate", .alwaysCooperate),
    ("AlwaysDefect", .alwaysDefect),
    ("TitForTat", .titForTat),
    ("GrimTrigger", .grimTrigger),
    ("RandomStrategy", .randomStrategy) ]

/-- The `create_strategy` factory: instance of the mapped class, or
ValueError for an unregistered name. -/
def create_strategy (strategy_name : String) : Except String Strategy :=
  match dget STRATEGY_MAP strategy_name with
  | some s => .ok s
  | none => .error ("Unknown strategy: " ++ strategy_name)

/-- Typed embedding of the heterogeneous `params` dict consumed by
`create_game_from_template`; each field models `params.get(key)` for one
of the keys the factory reads, `none` standing for an absent key. -/
structure GameParams where
  payoffs : Option (List (List String × List (Nat × ℚ)))
  demand_intercept : Option ℚ
  demand_slope : Option ℚ
  marginal_costs : Option (List (Nat × ℚ))
  private_values : Option (List ℚ)
  num_players : Option Nat
  deriving DecidableEq

/-- Params dict with no keys set. -/
def GameParams.emptyParams : GameParams :=
  ⟨none, none, none, none, none, none⟩

/-- The `create_game_from_template` factory: rejects a game type outside
AVAILABLE_GAMES, resolves strategy names (a non-empty list only, as the
Python truthiness test skips `[]`), then dispatches on the game type.
Demand parameters default to 100.0 and 1.0 via `params.get`. -/
def create_game_from_template (game_type : String) (params : GameParams)
    (player_names : Option (List String))
    (strategies : Option (List String)) : Except String GameInst :=
  if game_type ∈ AVAILABLE_GAMES then
    (match strategies with
      | none => Except.ok none
      | some [] => Except.ok none
      | some l => (l.mapM create_strategy).map some).bind
      (fun strategy_instances =>
        if game_type = "prisoners_dilemma" then
          .ok (.normalForm (create_prisoners_dilemma player_names
            strategy_instances params.payoffs))
        else if game_type = "cournot" then
          .ok (.cournot (create_cournot_game player_names
            (params.demand_intercept.getD 100)
            (params.demand_slope.getD 1)
            params.marginal_costs))
        else if game_type = "auction" then
          .ok (.auction player_names params.private_values
            (params.num_players.getD 2))
        else .error ("Unsupported game type: " ++ game_type))
  else .error ("Unknown game type: " ++ game_type)

/-! ## Cournot equilibrium (`game_engine.cournot`, modelled from the spec,
and the `/equilibrium/cournot` handler of `backend/main.py`) -/

/-- Python dict comprehension with `int` keys,
`\x7bint(k): v for k, v in d.items()\x7d`: parses every key, later keys
overwriting earlier ones that collapse to the same integer; fails when
any key is not an integer literal. -/
def pyIntStep {β : Type} (acc : Option (List (Nat × β))) (p : String × β) :
    Option (List (Nat × β)) :=
  acc.bind (fun d => (pyParseNat p.1).map (fun n => dset d n p.2))

def pyIntKeyDict {β : Type} (l : List (String × β)) :
    Option (List (Nat × β)) :=
  l.foldl pyIntStep (some [])

/-- Marginal-cost lookup for each player in order, failing like Python's
`KeyError` when a player's id has no cost entry. -/
def lookupCosts (costs : List (Nat × ℚ)) : List Player → Option (List (Nat × ℚ))
  | [] => some []
  | p :: rest =>
    (dget costs p.id).bind
      (fun c => (lookupCosts costs rest).map (fun l => (p.id, c) :: l))

/-- Modelled from the spec: the unconstrained first-order-condition
solution for one firm with marginal cost `c` among the `active` firms
(spec section 4.5): from a − c_i − b·Q − b·q_i = 0,
Q = (n·a − Σc)/((n+1)·b) and q_i = (a − c_i − b·Q)/b. -/
def cournotUnconstrained (a b : ℚ) (active : List (Nat × ℚ)) (c : ℚ) : ℚ :=
  let n : ℚ := active.length
  let sumc : ℚ := (active.map Prod.snd).sum
  (a - c - b * ((n * a - sumc) / ((n + 1) * b))) / b

/-- Modelled from the spec: one clipping pass of the Cournot solver —
firms whose unconstrained quantity is negative are fixed at zero output
and removed from the active set (spec section 4.5). -/
def clipPass (a b : ℚ) (active : List (Nat × ℚ)) : List (Nat × ℚ) :=
  active.filter (fun p => 0 ≤ cournotUnconstrained a b active p.2)

/-- Modelled from the spec: the Cournot quantity vector — re-solving the
reduced system after each clipping pass until no active quantity is
negative; a pass at a fixpoint is the identity, and each non-fixpoint
pass removes a firm, so iterating one pass more than there are firms
reaches the fixpoint.  Clipped firms produce zero. -/
def cournotSolve (a b : ℚ) (costs : List (Nat × ℚ)) : List (Nat × ℚ) :=
  let active := (clipPass a b)^[costs.length + 1] costs
  costs.map (fun p =>
    (p.1, if (dget active p.1).isSome then cournotUnconstrained a b active p.2
      else 0))

/-- Result dict of `CournotGame.compute_equilibrium`: per-firm
quantities, market price, per-firm profits. -/
structure CournotEquilibriumResult where
  quantities : List (Nat × ℚ)
  price : ℚ
  payoffs : List (Nat × ℚ)
  deriving DecidableEq

/-- Modelled from the spec: `CournotGame.compute_equilibrium` of the
missing `game_engine.cournot` (spec section 4.5).  Fails with
InvalidParameters when a ≤ 0, b ≤ 0 or the cost count does not match the
player count; looking up a player whose id has no marginal cost fails as
a KeyError would.  Otherwise reports quantities, the market-clearing
price P(Q*) = a − b·Q*, and per-firm profit (P(Q*) − c_i)·q_i*. -/
def CournotGame.compute_equilibrium (g : CournotGame) :
    Except String CournotEquilibriumResult :=
  if g.demand_intercept ≤ 0 ∨ g.demand_slope ≤ 0 then
    .error "Invalid parameters: demand intercept and demand slope must be positive"
  else if g.marginal_costs.length ≠ g.players.length then
    .error "Invalid parameters: number of marginal costs must match number of players"
  else
    match lookupCosts g.marginal_costs g.players with
    | none => .error "KeyError: missing marginal cost for a player"
    | some costList =>
      let a := g.demand_intercept
      let b := g.demand_slope
      let quantities := cournotSolve a b costList
      let total := (quantities.map Prod.snd).sum
      let price := a - b * total
      let payoffs := List.zipWith
        (fun (cp : Nat × ℚ) (qp : Nat × ℚ) => (cp.1, (price - cp.2) * qp.2))
        costList quantities
      .ok ⟨quantities, price, payoffs⟩

/-- CournotEquilibriumRequest (`backend/models.py`): demand parameters
with pydantic defaults 100.0 and 1.0, and the marginal-cost dict keyed by
player-id strings. -/
structure CournotEquilibriumRequest where
  demand_intercept : ℚ
  demand_slope : ℚ
  marginal_costs : List (String × ℚ)
  deriving DecidableEq

/-- Request carrying only marginal costs: the omitted demand fields take
their pydantic defaults 100.0 and 1.0. -/
def CournotEquilibriumRequest.withDefaults (costs : List (String × ℚ)) :
    CournotEquilibriumRequest :=
  ⟨100, 1, costs⟩

/-- CournotEquilibriumResponse (`backend/models.py`). -/
structure CournotEquilibriumResponse where
  equilibrium_quantities : List (String × ℚ)
  equilibrium_price : ℚ
  payoffs : List (String × ℚ)
  deriving DecidableEq

/-- The `/equilibrium/cournot` handler `compute_cournot_equilibrium`
(`backend/main.py`): parses the marginal-cost keys to ints, always builds
a two-firm CournotGame (Firm 1 and Firm 2 with DummyStrategy), computes
its equilibrium and serializes firm ids back to strings; every exception
becomes a rejected request (HTTP 400 "Invalid request: ..."). -/
def compute_cournot_equilibrium (request : CournotEquilibriumRequest) :
    Except String CournotEquilibriumResponse :=
  match pyIntKeyDict request.marginal_costs with
  | none => .error "Invalid request: invalid literal for int with base 10"
  | some marginal_costs =>
    let players : List Player :=
      [⟨0, "Firm 1", some .dummy⟩, ⟨1, "Firm 2", some .dummy⟩]
    let game : CournotGame :=
      ⟨players, request.demand_intercept, request.demand_slope, marginal_costs⟩
    match game.compute_equilibrium with
    | .error e => .error ("Invalid request: " ++ e)
    | .ok eq =>
      .ok ⟨eq.quantities.map (fun p => (natKey p.1, p.2)),
        eq.price,
        eq.payoffs.map (fun p => (natKey p.1, p.2))⟩

/-! ## Game reconstruction in the Nash and best-response handlers
(`backend/main.py` lines 221-231 and 299-307) -/

/-- NashEquilibriumRequest (`backend/models.py`): payoff matrix keyed by
comma-joined action profiles, and per-player action lists keyed by
player-id strings.  BestResponseRequest has the same two fields, so the
same embedding serves both handlers. -/
structure NashEquilibriumRequest where
  payoff_matrix : List (String × List ℚ)
  player_actions : List (String × List String)
  deriving DecidableEq

/-- Result of the handler's game reconstruction, before the NormalFormGame
constructor is invoked: sorted player ids, the per-player action dict and
the profile-keyed payoff dict. -/
structure ParsedNashGame where
  player_ids : List Nat
  actions : List (Nat × List String)
  payoff_matrix : List (List String × List (Nat × ℚ))
  deriving DecidableEq

/-- One step of `\x7bi: request.player_actions[str(i)] for i in player_ids\x7d`:
a missing key raises KeyError. -/
def actionStep (pa : List (String × List String))
    (acc : List (Nat × List String)) (i : Nat) :
    Option (List (Nat × List String)) :=
  (dget pa (natKey i)).map (fun v => dset acc i v)

/-- The handler's per-player action dict. -/
def buildActions (pa : List (String × List String)) (ids : List Nat) :
    Option (List (Nat × List String)) :=
  ids.foldlM (actionStep pa) []

/-- Worker for `\x7bi: payoffs[idx] for idx, i in enumerate(player_ids)\x7d`:
walks the ids with an explicit index, failing like the IndexError of
`payoffs[idx]` when the value list is too short. -/
def buildInnerAux (vals : List ℚ) :
    List Nat → Nat → List (Nat × ℚ) → Option (List (Nat × ℚ))
  | [], _, acc => some acc
  | i :: rest, idx, acc =>
    (vals.get? idx).bind (fun v => buildInnerAux vals rest (idx + 1) (dset acc i v))

/-- Per-profile payoff dict: the idx-th payoff of the request's value
list goes to the idx-th entry of the sorted id list. -/
def buildInner (vals : List ℚ) (ids : List Nat) : Option (List (Nat × ℚ)) :=
  buildInnerAux vals ids 0 []

/-- One step of the payoff-matrix loop: split the key on commas into the
profile and store the per-player payoff dict under it. -/
def payoffStep (ids : List Nat)
    (acc : List (List String × List (Nat × ℚ))) (p : String × List ℚ) :
    Option (List (List String × List (Nat × ℚ))) :=
  (buildInner p.2 ids).map (fun inner => dset acc (pySplitComma p.1) inner)

/-- The handler's profile-keyed payoff dict. -/
def buildPayoffMatrix (ids : List Nat) (pm : List (String × List ℚ)) :
    Option (List (List String × List (Nat × ℚ))) :=
  pm.foldlM (payoffStep ids) []

/-! ## NashSolver (`game_engine.solvers`, modelled from the spec) -/

/-- Legal action list bound to a player id. -/
def actionsOf (g : NormalFormGame) (pid : Nat) : List String :=
  (dget g.actions pid).getD []

/-- Payoff of a player at a profile.  The payoff table is complete by the
construction-time invariant (spec section 3), so the default for an
absent entry is never read on well-formed games. -/
def payoffOf (g : NormalFormGame) (profile : List String) (pid : Nat) : ℚ :=
  ((dget g.payoff_matrix profile).bind (fun d => dget d pid)).getD 0

/-- Cartesian product of action lists in player order, first player
varying slowest, as `itertools.product` enumerates. -/
def cartProd : List (List String) → List (List String)
  | [] => [[]]
  | l :: rest => l.flatMap (fun a => (cartProd rest).map (fun t => a :: t))

/-- Every action profile of the game, in deterministic enumeration
order. -/
def profilesOf (g : NormalFormGame) : List (List String) :=
  cartProd (g.players.map (fun p => actionsOf g p.id))

/-- Modelled from the spec: a profile is pure-Nash iff no player has an
alternative action strictly improving that player's payoff holding the
others fixed; ties do not disqualify (spec section 4.3). -/
def isPureNash (g : NormalFormGame) (profile : List String) : Bool :=
  g.players.enum.all (fun ip =>
    (actionsOf g ip.2.id).all (fun alt =>
      payoffOf g (profile.set ip.1 alt) ip.2.id ≤ payoffOf g profile ip.2.id))

/-- Modelled from the spec: the pure-equilibrium search of
`NashSolver.find_all_nash` — filter the full profile enumeration by the
no-profitable-deviation test. -/
def findPureNash (g : NormalFormGame) : List (List String) :=
  (profilesOf g).filter (isPureNash g)

/-- Mixed equilibrium of a two-player game: one probability vector per
player over that player's own action list. -/
structure MixedEquilibrium2 where
  p0 : List ℚ
  p1 : List ℚ
  deriving DecidableEq

/-- Modelled from the spec: the two-player mixed-equilibrium search of
`NashSolver.find_all_nash` for two-action players (spec section 4.3).
Support pairs where each support is a singleton are the degenerate 0/1
vectors, which the result excludes; supports of size one against size
two make the indifference system singular (underdetermined or
infeasible) and are discarded; the full-support pair solves the two
indifference equations, discarding singular systems and probabilities
outside (0,1). -/
def findMixedNash2x2 (g : NormalFormGame) : List MixedEquilibrium2 :=
  match g.players.map (fun p => p.id) with
  | [i, j] =>
    match actionsOf g i, actionsOf g j with
    | [a1, a2], [b1, b2] =>
      let u1 := fun x y => payoffOf g [x, y] i
      let u2 := fun x y => payoffOf g [x, y] j
      let denq := u1 a1 b1 - u1 a1 b2 - u1 a2 b1 + u1 a2 b2
      let denp := u2 a1 b1 - u2 a2 b1 - u2 a1 b2 + u2 a2 b2
      if denq = 0 ∨ denp = 0 then []
      else
        let q := (u1 a2 b2 - u1 a1 b2) / denq
        let p := (u2 a2 b2 - u2 a2 b1) / denp
        if 0 < p ∧ p < 1 ∧ 0 < q ∧ q < 1 then
          [⟨[p, 1 - p], [q, 1 - q]⟩]
        else []
    | _, _ => []
  | _ => []

/-- Result dict of `find_all_nash`: pure and mixed lists, not
de-duplicated against each other. -/
structure NashResult where
  pureEq : List (List String)
  mixedEq : List MixedEquilibrium2
  deriving DecidableEq

/-- Modelled from the spec: `NashSolver.find_all_nash` — pure search for
any player count, mixed search only for exactly two players (spec
section 4.3). -/
def find_all_nash (g : NormalFormGame) : NashResult :=
  ⟨findPureNash g, if g.players.length = 2 then findMixedNash2x2 g else []⟩

/-- Game reconstruction shared by `/equilibrium/nash` and
`/analyze/best_response`: parse the player_actions keys to ints, sort
them ascending, rebuild the action dict via the str round-trip, and
rebuild the payoff table keyed by comma-split profiles; any exception
(ValueError, KeyError, IndexError) is caught and surfaced as a rejected
request. -/
def parseNashRequest (req : NashEquilibriumRequest) :
    Option ParsedNashGame :=
  (req.player_actions.mapM (fun p => pyParseNat p.1)).bind (fun rawIds =>
    let ids := pySorted rawIds
    (buildActions req.player_actions ids).bind (fun acts =>
      (buildPayoffMatrix ids req.payoff_matrix).map
        (fun pm => ⟨ids, acts, pm⟩)))

/-! ## Manual play (`NormalFormGame.play_round`, modelled from the spec,
and the `/games/.../play` handler of `backend/main.py`) -/

/-- Modelled from the spec: profile assembly inside `play_round` — each
player's submitted action is validated against that player's legal action
set (InvalidAction otherwise, also when a player has no submitted
action), and the profile lists actions in player order. -/
def buildProfile (actionsTable : List (Nat × List String))
    (acts : List (Nat × String)) : List Player → Except String (List String)
  | [] => .ok []
  | p :: rest =>
    match dget acts p.id with
    | none => .error "InvalidAction: no action submitted for player"
    | some a =>
      if a ∈ (dget actionsTable p.id).getD [] then
        (buildProfile actionsTable acts rest).map (fun t => a :: t)
      else .error "InvalidAction: action outside the player's action set"

/-- Modelled from the spec: `NormalFormGame.play_round` (spec section
4.1) — validate every action, look the profile up in the payoff table
(MissingPayoff when absent), append the HistoryEntry, return the
per-player payoff mapping together with the updated game. -/
def NormalFormGame.play_round (g : NormalFormGame)
    (acts : List (Nat × String)) :
    Except String (List (Nat × ℚ) × NormalFormGame) :=
  (buildProfile g.actions acts g.players).bind (fun profile =>
    match dget g.payoff_matrix profile with
    | none => .error "MissingPayoff: profile absent from payoff table"
    | some payoffs =>
      .ok (payoffs, { g with history := g.history ++ [(profile, payoffs)] }))

/-- PlayRoundRequest (`backend/models.py`): actions keyed by player-id
strings. -/
structure PlayRoundRequest where
  actions : List (String × String)
  deriving DecidableEq

/-- History entry as the play and simulate handlers serialize it: the
profile list and payoffs keyed by player-id strings. -/
structure SerializedHistoryEntry where
  profile : List String
  payoffs : List (String × ℚ)
  deriving DecidableEq

/-- PlayRoundResponse (`backend/models.py`); game_state carries the
updated game, standing for the serialize_game_state dict built from
it. -/
structure PlayRoundResponse where
  payoffs : List (String × ℚ)
  game_state : NormalFormGame
  history : List SerializedHistoryEntry
  deriving DecidableEq

/-- The `/games/.../play` handler body after session lookup
(`backend/main.py` play_round): parse the action keys to ints (outside
the try block, so a malformed key propagates as an uncaught ValueError),
invoke the game's play_round, and serialize payoff keys — in the payoffs
field and in every history entry — back to decimal strings. -/
def play_round_handler (g : NormalFormGame) (request : PlayRoundRequest) :
    Except String PlayRoundResponse :=
  match pyIntKeyDict request.actions with
  | none => .error "ValueError: invalid literal for int with base 10"
  | some acts =>
    match g.play_round acts with
    | .error e => .error ("Invalid action: " ++ e)
    | .ok pr =>
      .ok ⟨pr.1.map (fun p => (natKey p.1, p.2)),
        pr.2,
        pr.2.history.map
          (fun entry => ⟨entry.1, entry.2.map (fun q => (natKey q.1, q.2))⟩)⟩

/-! ## Repeated-game simulation (`game_engine.repeated`, modelled from
the spec, and the `/games/.../simulate` handler of `backend/main.py`) -/

/-- Result dict of `simulate_repeated_game`. -/
structure SimResult where
  history : List HistoryEntry
  cumulative_payoffs : List (Nat × ℚ)
  discounted_payoffs : Option (List (Nat × ℚ))
  strategy_history : List (List (Nat × String))
  deriving DecidableEq

/-- Modelled from the spec: one synchronous move query per player — a
player without a bound Strategy fails the run with MissingStrategy, and
every strategy is queried with the game's current (pre-round) history
(spec section 4.6).  `rand` supplies RandomStrategy's injected draw per
player id. -/
def chooseActionsAux (g : NormalFormGame) (rand : Nat → Nat) :
    List Player → Except String (List (Nat × String))
  | [] => .ok []
  | p :: rest =>
    match p.strategy with
    | none => .error "MissingStrategy: player has no bound strategy"
    | some s =>
      match s.choose (actionsOf g p.id) (rand p.id) p.id g.history with
      | none => .error "NotImplementedError: strategy cannot choose"
      | some a => (chooseActionsAux g rand rest).map (fun l => (p.id, a) :: l)

/-- Simultaneous choices of all players for the coming round. -/
def chooseActions (g : NormalFormGame) (rand : Nat → Nat) :
    Except String (List (Nat × String)) :=
  chooseActionsAux g rand g.players

/-- Adds one round's payoffs, scaled by `factor`, into a running
per-player total. -/
def addPayoffs (base : List (Nat × ℚ)) (delta : List (Nat × ℚ))
    (factor : ℚ) : List (Nat × ℚ) :=
  base.map (fun p => (p.1, p.2 + factor * ((dget delta p.1).getD 0)))

/-- Modelled from the spec: the round loop of `simulate_repeated_game` —
round t queries every bound strategy on the history through round t−1,
plays the profile through the same validate/lookup/append path as a
manual round, and accumulates raw totals and, when a discount factor is
supplied, payoff×δ^t totals; `strategy_history` records each round's
chosen action per player (spec section 4.6). -/
def runRounds (rand : Nat → Nat → Nat) (discount : Option ℚ) :
    Nat → Nat → NormalFormGame →
    Except String (NormalFormGame × List (Nat × ℚ) ×
      Option (List (Nat × ℚ)) × List (List (Nat × String)))
  | _, 0, g =>
    .ok (g, g.players.map (fun p => (p.id, 0)),
      discount.map (fun _ => g.players.map (fun p => (p.id, 0))), [])
  | t, n + 1, g =>
    (chooseActions g (rand t)).bind (fun acts =>
      (g.play_round acts).bind (fun pr =>
        (runRounds rand discount (t + 1) n pr.2).map (fun res =>
          (res.1,
            addPayoffs res.2.1 pr.1 1,
            (match res.2.2.1, discount with
              | some dtot, some d => some (addPayoffs dtot pr.1 (d ^ t))
              | _, _ => none),
            acts :: res.2.2.2))))

/-- Modelled from the spec: `simulate_repeated_game(game, num_rounds,
discount_factor, reset_between_runs)` — reset_between_runs=true clears
history before the run, false continues from any pre-existing history;
the returned history lists exactly this run's rounds (empty for zero
rounds, with zero cumulative payoffs for every player). -/
def simulate_repeated_game (g : NormalFormGame) (num_rounds : Nat)
    (discount_factor : Option ℚ) (reset_between_runs : Bool)
    (randSource : Nat → Nat → Nat) : Except String SimResult :=
  let g0 := if reset_between_runs then { g with history := [] } else g
  (runRounds randSource discount_factor 0 num_rounds g0).map (fun res =>
    ⟨res.1.history.drop g0.history.length, res.2.1, res.2.2.1, res.2.2.2⟩)

/-- SimulateRequest (`backend/models.py`). -/
structure SimulateRequest where
  num_rounds : Nat
  discount_factor : Option ℚ
  deriving DecidableEq

/-- SimulateResponse (`backend/models.py`). -/
structure SimulateResponse where
  history : List SerializedHistoryEntry
  cumulative_payoffs : List (String × ℚ)
  discounted_payoffs : Option (List (String × ℚ))
  strategy_history : List (List (String × String))
  deriving DecidableEq

/-- Serialization step of the simulate handler: ids become decimal
strings; a falsy (absent or empty) discounted dict serializes to None;
a simulation exception becomes an internal error response. -/
def serializeSimResult : Except String SimResult →
    Except String SimulateResponse
  | .error e => .error ("Simulation error: " ++ e)
  | .ok res =>
    .ok ⟨res.history.map
        (fun entry => ⟨entry.1, entry.2.map (fun q => (natKey q.1, q.2))⟩),
      res.cumulative_payoffs.map (fun p => (natKey p.1, p.2)),
      (match res.discounted_payoffs with
        | none => none
        | some [] => none
        | some l => some (l.map (fun p => (natKey p.1, p.2)))),
      res.strategy_history.map (fun sh => sh.map (fun q => (natKey q.1, q.2)))⟩

/-- The `/games/.../simulate` handler body after session lookup
(`backend/main.py` simulate_game): always invokes simulate_repeated_game
with reset_between_runs=False — the request carries no reset field — and
serializes the result. -/
def simulate_handler (g : NormalFormGame) (req : SimulateRequest)
    (randSource : Nat → Nat → Nat) : Except String SimulateResponse :=
  serializeSimResult
    (simulate_repeated_game g req.num_rounds req.discount_factor false
      randSource)

/-- Fixture for the simulation claims: the Prisoners' Dilemma game with
TitForTat and AlwaysDefect bound and one pre-existing (D,D) round in the
history. -/
def simWitnessGame : NormalFormGame :=
  { players := [⟨0, "Player 1", some .titForTat⟩,
      ⟨1, "Player 2", some .alwaysDefect⟩],
    actions := [(0, ["C", "D"]), (1, ["C", "D"])],
    payoff_matrix := pdDefaultTable,
    history := [(["D", "D"], [(0, 1), (1, 1)])] }

/-- Expected one-round continuation result on `simWitnessGame`:
TitForTat mirrors the pre-existing defection, so round 0 is (D,D). -/
def simWitnessResult : SimResult :=
  ⟨[(["D", "D"], [(0, 1), (1, 1)])], [(0, 1), (1, 1)], none,
    [[(0, "D"), (1, "D")]]⟩

/-! ## Analysis handlers and their independence from the session store
(`backend/main.py`) -/

/-- NashEquilibriumResponse (`backend/models.py`). -/
structure NashEquilibriumResponse where
  pure_equilibria : List (List String)
  mixed_equilibria : List MixedEquilibrium2
  deriving DecidableEq

/-- The `/equilibrium/nash` handler `compute_nash_equilibrium`
(`backend/main.py`): reconstruct the game from the request alone (players
named "Player i+1" carrying the local DummyStrategy, empty history) and
run the solver; every exception is a rejected request. -/
def compute_nash_equilibrium (req : NashEquilibriumRequest) :
    Except String NashEquilibriumResponse :=
  match parseNashRequest req with
  | none => .error "Invalid request"
  | some parsed =>
    let players := parsed.player_ids.map
      (fun i => Player.mk i ("Player " ++ natKey (i + 1)) (some .dummy))
    let game : NormalFormGame :=
      ⟨players, parsed.actions, parsed.payoff_matrix, []⟩
    let result := find_all_nash game
    .ok ⟨result.pureEq, result.mixedEq⟩

/-- Node of the deviation graph: a profile with its payoff vector. -/
structure DeviationNode where
  profile : List String
  payoffs : List (Nat × ℚ)
  deriving DecidableEq

/-- Edge of the deviation graph: a strictly improving unilateral move. -/
structure DeviationEdge where
  source : List String
  target : List String
  player : Nat
  deriving DecidableEq

/-- Deviation-graph dict returned by the analyzer. -/
structure DeviationGraph where
  nodes : List DeviationNode
  edges : List DeviationEdge
  nash_nodes : List Nat
  deriving DecidableEq

/-- Modelled from the spec:
`BestResponseAnalyzer.get_deviation_graph` (spec section 4.4) — one node
per profile with its payoff vector; a directed edge per (player,
alternative action) pair that strictly increases that player's payoff;
`nash_nodes` lists the indices of the nodes with zero outgoing edges;
enumeration order is the deterministic profile/action order. -/
def get_deviation_graph (g : NormalFormGame) : DeviationGraph :=
  let profiles := profilesOf g
  let nodes := profiles.map
    (fun pr => DeviationNode.mk pr (g.players.map (fun p => (p.id, payoffOf g pr p.id))))
  let edges := profiles.flatMap (fun pr =>
    g.players.enum.flatMap (fun ip =>
      (actionsOf g ip.2.id).filterMap (fun alt =>
        if payoffOf g pr ip.2.id < payoffOf g (pr.set ip.1 alt) ip.2.id then
          some (DeviationEdge.mk pr (pr.set ip.1 alt) ip.2.id)
        else none)))
  ⟨nodes, edges,
    (profiles.enum.filter
      (fun ipr => edges.all (fun e => e.source ≠ ipr.2))).map (fun ipr => ipr.1)⟩

/-- BestResponseResponse (`backend/models.py`). -/
structure BestResponseResponse where
  nodes : List DeviationNode
  edges : List DeviationEdge
  nash_nodes : List Nat
  deriving DecidableEq

/-- The `/analyze/best_response` handler `analyze_best_response`
(`backend/main.py`): same reconstruction as the Nash handler
(BestResponseRequest has the same two fields, embedded by the same
request type), then the deviation graph. -/
def analyze_best_response (req : NashEquilibriumRequest) :
    Except String BestResponseResponse :=
  match parseNashRequest req with
  | none => .error "Invalid request"
  | some parsed =>
    let players := parsed.player_ids.map
      (fun i => Player.mk i ("Player " ++ natKey (i + 1)) (some .dummy))
    let game : NormalFormGame :=
      ⟨players, parsed.actions, parsed.payoff_matrix, []⟩
    let gr := get_deviation_graph game
    .ok ⟨gr.nodes, gr.edges, gr.nash_nodes⟩

/-- The three analysis handlers in application context: the app state is
the module-global session store, threaded through every endpoint; these
three handler bodies never name `session_manager`, so the translation
returns the store unchanged and computes the response from the request
alone. -/
def nash_handler_app (st : SessionManager GameInst)
    (req : NashEquilibriumRequest) :
    Except String NashEquilibriumResponse × SessionManager GameInst :=
  (compute_nash_equilibrium req, st)

/-- Cournot analysis handler in application context. -/
def cournot_handler_app (st : SessionManager GameInst)
    (req : CournotEquilibriumRequest) :
    Except String CournotEquilibriumResponse × SessionManager GameInst :=
  (compute_cournot_equilibrium req, st)

/-- Best-response analysis handler in application context. -/
def best_response_handler_app (st : SessionManager GameInst)
    (req : NashEquilibriumRequest) :
    Except String BestResponseResponse × SessionManager GameInst :=
  (analyze_best_response req, st)

end GameTheoryBackend

namespace GameTheoryBackend

/-! ## Dictionary lemmas -/

theorem dget_map_update_same {α β : Type} [DecidableEq α]
    (l : List (α × β)) (k : α) (v : β) (h : (dget l k).isSome) :
    dget (l.map (fun p => if p.1 = k then (k, v) else p)) k = some v := by
  induction l with
  | nil => simp [dget] at h
  | cons p rest ih =>
    rw [dget] at h
    by_cases hk : p.1 = k
    · simp [dget, hk]
    · rw [if_neg hk] at h
      simp only [List.map_cons, if_neg hk]
      rw [dget, if_neg hk]
      exact ih h

theorem dget_map_update_other {α β : Type} [DecidableEq α]
    (l : List (α × β)) (k k' : α) (v : β) (hne : k' ≠ k) :
    dget (l.map (fun p => if p.1 = k then (k, v) else p)) k' = dget l k' := by
  induction l with
  | nil => simp [dget]
  | cons p rest ih =>
    by_cases hk : p.1 = k
    · simp only [List.map_cons, if_pos hk]
      rw [dget, dget, if_neg (fun hh : k = k' => hne hh.symm),
        if_neg (by rw [hk]; exact fun hh : k = k' => hne hh.symm)]
      exact ih
    · simp only [List.map_cons, if_neg hk]
      rw [dget, dget]
      by_cases hk' : p.1 = k'
      · simp [hk']
      · rw [if_neg hk', if_neg hk']
        exact ih

theorem dget_append_single_same {α β : Type} [DecidableEq α]
    (l : List (α × β)) (k : α) (v : β) (h : dget l k = none) :
    dget (l ++ [(k, v)]) k = some v := by
  induction l with
  | nil => simp [dget]
  | cons p rest ih =>
    rw [dget] at h
    by_cases hk : p.1 = k
    · simp [hk] at h
    · rw [if_neg hk] at h
      rw [List.cons_append, dget, if_neg hk]
      exact ih h

theorem dget_append_single_other {α β : Type} [DecidableEq α]
    (l : List (α × β)) (k k' : α) (v : β) (hne : k' ≠ k) :
    dget (l ++ [(k, v)]) k' = dget l k' := by
  induction l with
  | nil =>
    simp only [List.nil_append, dget, if_neg (fun hh : k = k' => hne hh.symm)]
  | cons p rest ih =>
    rw [List.cons_append, dget, dget]
    by_cases hk' : p.1 = k'
    · simp [hk']
    · rw [if_neg hk', if_neg hk']
      exact ih

theorem dget_dset_same {α β : Type} [DecidableEq α]
    (l : List (α × β)) (k : α) (v : β) : dget (dset l k v) k = some v := by
  unfold dset
  by_cases h : (dget l k).isSome
  · rw [if_pos h]
    exact dget_map_update_same l k v h
  · rw [if_neg h]
    exact dget_append_single_same l k v (by
      cases hv : dget l k
      · rfl
      · rw [hv] at h; simp at h)

theorem dget_dset_other {α β : Type} [DecidableEq α]
    (l : List (α × β)) (k k' : α) (v : β) (hne : k' ≠ k) :
    dget (dset l k v) k' = dget l k' := by
  unfold dset
  by_cases h : (dget l k).isSome
  · rw [if_pos h]
    exact dget_map_update_other l k k' v hne
  · rw [if_neg h]
    exact dget_append_single_other l k k' v hne

theorem dget_ddel_same {α β : Type} [DecidableEq α]
    (l : List (α × β)) (k : α) : dget (ddel l k) k = none := by
  induction l with
  | nil => simp [ddel, dget]
  | cons p rest ih =>
    rw [ddel, List.filter_cons]
    by_cases hk : p.1 = k
    · rw [if_neg (by simp [hk])]
      exact ih
    · rw [if_pos (by simp [hk]), dget, if_neg hk]
      exact ih

theorem dget_ddel_other {α β : Type} [DecidableEq α]
    (l : List (α × β)) (k k' : α) (hne : k' ≠ k) :
    dget (ddel l k) k' = dget l k' := by
  induction l with
  | nil => simp [ddel]
  | cons p rest ih =>
    rw [ddel, List.filter_cons]
    by_cases hk : p.1 = k
    · rw [if_neg (by simp [hk]), dget,
        if_neg (by rw [hk]; exact fun hh : k = k' => hne hh.symm)]
      exact ih
    · rw [if_pos (by simp [hk]), dget, dget]
      by_cases hk' : p.1 = k'
      · simp [hk']
      · rw [if_neg hk', if_neg hk']
        exact ih

theorem dget_eq_none_iff {α β : Type} [DecidableEq α]
    (l : List (α × β)) (k : α) :
    dget l k = none ↔ k ∉ l.map Prod.fst := by
  induction l with
  | nil => simp [dget]
  | cons p rest ih =>
    rw [dget]
    by_cases hk : p.1 = k
    · simp [hk]
    · rw [if_neg hk]
      simp only [List.map_cons, List.mem_cons, ih]
      constructor
      · intro h hmem
        rcases hmem with hmem | hmem
        · exact hk hmem.symm
        · exact h hmem
      · intro h
        exact fun hmem => h (Or.inr hmem)

/-! ## Claim C4 -/

/-- C4: for every SessionManager state, game g and game-type string t,
create_session(game=g, game_type=t) returns an id sid such that a
subsequent get_session(sid) yields a mapping with "game" entry g and
"game_type" entry t, and the entries stored under every other session id
are unchanged by the call. -/
theorem create_session_then_get_session
    {γ : Type} (m : SessionManager γ) (fresh : String) (g : γ) (t : String) :
    ((m.create_session none fresh (some g) (some t)).2.get_session
        (m.create_session none fresh (some g) (some t)).1
      = some ⟨some g, some t, none⟩) ∧
    ∀ other : String, other ≠ (m.create_session none fresh (some g) (some t)).1 →
      (m.create_session none fresh (some g) (some t)).2.get_session other
        = m.get_session other := by
  refine ⟨?_, ?_⟩
  · show dget (dset m.sessions fresh _) fresh = _
    exact dget_dset_same m.sessions fresh _
  · intro other hne
    show dget (dset m.sessions fresh _) other = dget m.sessions other
    exact dget_dset_other m.sessions fresh other _ hne

/-- Witness for C4 at a concrete store. -/
theorem create_session_then_get_session_witness :
    (((SessionManager.empty Nat).create_session none "s1" (some 7)
        (some "prisoners_dilemma")).2.get_session "s1"
      = some ⟨some 7, some "prisoners_dilemma", none⟩) ∧
    (((SessionManager.empty Nat).create_session none "s1" (some 7)
        (some "prisoners_dilemma")).2.get_session "zz"
      = (SessionManager.empty Nat).get_session "zz") := by
  have h := create_session_then_get_session (SessionManager.empty Nat) "s1" 7
    "prisoners_dilemma"
  exact ⟨h.1, h.2 "zz" (by decide)⟩

/-! ## Claim C5 -/

/-- C5: get_session returns None exactly when the id is not in the stored
mapping; delete_session returns True and removes the entry (leaving every
other entry unchanged) when the id is stored, and returns False leaving
the whole mapping unchanged when it is not. -/
theorem get_session_delete_session_spec
    {γ : Type} (m : SessionManager γ) (sid : String) :
    (m.get_session sid = none ↔ sid ∉ m.sessions.map Prod.fst) ∧
    ((m.get_session sid).isSome →
      (m.delete_session sid).1 = true ∧
      (m.delete_session sid).2.get_session sid = none ∧
      ∀ other : String, other ≠ sid →
        (m.delete_session sid).2.get_session other = m.get_session other) ∧
    (m.get_session sid = none →
      (m.delete_session sid).1 = false ∧ (m.delete_session sid).2 = m) := by
  refine ⟨dget_eq_none_iff m.sessions sid, ?_, ?_⟩
  · intro h
    have h' : (dget m.sessions sid).isSome = true := h
    unfold SessionManager.delete_session
    rw [if_pos h']
    refine ⟨rfl, dget_ddel_same m.sessions sid, ?_⟩
    intro other hne
    exact dget_ddel_other m.sessions sid other hne
  · intro h
    have h' : dget m.sessions sid = none := h
    unfold SessionManager.delete_session
    rw [if_neg (by simp [h'])]
    exact ⟨rfl, rfl⟩

/-- Witness for C5 at a concrete one-entry store: delete of the present
id succeeds and removes only that entry; delete of an absent id fails and
leaves the store unchanged. -/
theorem get_session_delete_session_spec_witness :
    ((SessionManager.mk [("a", ⟨some 7, some "cournot", none⟩)] :
        SessionManager Nat).delete_session "a").1 = true ∧
    ((SessionManager.mk [("a", ⟨some 7, some "cournot", none⟩)] :
        SessionManager Nat).delete_session "a").2.get_session "a" = none ∧
    ((SessionManager.mk [("a", ⟨some 7, some "cournot", none⟩)] :
        SessionManager Nat).delete_session "b").1 = false ∧
    ((SessionManager.mk [("a", ⟨some 7, some "cournot", none⟩)] :
        SessionManager Nat).delete_session "b").2
      = SessionManager.mk [("a", ⟨some 7, some "cournot", none⟩)] := by
  have h1 := get_session_delete_session_spec
    (SessionManager.mk [("a", ⟨some 7, some "cournot", none⟩)]) "a"
  have h2 := get_session_delete_session_spec
    (SessionManager.mk [("a", ⟨some 7, some "cournot", none⟩)]) "b"
  have ha := h1.2.1 (by decide)
  have hb := h2.2.2 (by decide)
  exact ⟨ha.1, ha.2.1, hb.1, hb.2⟩

/-! ## Claim C6 -/

/-- C6: create_strategy raises ValueError naming the offending token for
every name outside the five registered ones and returns the mapped
variant for each registered name; create_game_from_template raises
ValueError naming the offending token for every game_type not in
AVAILABLE_GAMES. -/
theorem factory_miss_spec :
    (∀ name : String,
      name ∉ ["AlwaysCooperate", "AlwaysDefect", "TitForTat", "GrimTrigger",
        "RandomStrategy"] →
      create_strategy name = .error ("Unknown strategy: " ++ name)) ∧
    (create_strategy "AlwaysCooperate" = .ok .alwaysCooperate ∧
     create_strategy "AlwaysDefect" = .ok .alwaysDefect ∧
     create_strategy "TitForTat" = .ok .titForTat ∧
     create_strategy "GrimTrigger" = .ok .grimTrigger ∧
     create_strategy "RandomStrategy" = .ok .randomStrategy) ∧
    (∀ (t : String) (params : GameParams) (names : Option (List String))
      (strats : Option (List String)), t ∉ AVAILABLE_GAMES →
      create_game_from_template t params names strats
        = .error ("Unknown game type: " ++ t)) := by
  refine ⟨?_, ⟨rfl, rfl, rfl, rfl, rfl⟩, ?_⟩
  · intro name hmem
    have h1 : ¬(("AlwaysCooperate" : String) = name) := fun h => hmem (by
      rw [← h]; simp)
    have h2 : ¬(("AlwaysDefect" : String) = name) := fun h => hmem (by
      rw [← h]; simp)
    have h3 : ¬(("TitForTat" : String) = name) := fun h => hmem (by
      rw [← h]; simp)
    have h4 : ¬(("GrimTrigger" : String) = name) := fun h => hmem (by
      rw [← h]; simp)
    have h5 : ¬(("RandomStrategy" : String) = name) := fun h => hmem (by
      rw [← h]; simp)
    simp [create_strategy, STRATEGY_MAP, dget, h1, h2, h3, h4, h5]
  · intro t params names strats hmem
    unfold create_game_from_template
    rw [if_neg hmem]

/-! ## Claim C1 -/

theorem compute_equilibrium_two_firm_error_iff (a b : ℚ)
    (d : List (Nat × ℚ)) :
    (∃ e, (CournotGame.mk
        [⟨0, "Firm 1", some .dummy⟩, ⟨1, "Firm 2", some .dummy⟩]
        a b d).compute_equilibrium = .error e)
      ↔ (a ≤ 0 ∨ b ≤ 0 ∨ d.length ≠ 2 ∨ dget d 0 = none ∨ dget d 1 = none) := by
  unfold CournotGame.compute_equilibrium
  dsimp only
  by_cases hab : a ≤ 0 ∨ b ≤ 0
  · rw [if_pos hab]
    simp only [Except.error.injEq, exists_eq']
    tauto
  · rw [if_neg hab]
    by_cases hlen : d.length ≠ 2
    · rw [if_pos (by simpa using hlen)]
      simp only [Except.error.injEq, exists_eq']
      tauto
    · rw [if_neg (by simpa using hlen)]
      rw [lookupCosts, lookupCosts, lookupCosts]
      dsimp only
      cases h0 : dget d 0 with
      | none =>
        simp only [Option.none_bind]
        simp only [true_iff, Except.error.injEq, exists_eq']
        tauto
      | some c0 =>
        cases h1 : dget d 1 with
        | none =>
          simp only [Option.some_bind, Option.none_bind, Option.map_none']
          simp only [true_iff, Except.error.injEq, exists_eq']
          tauto
        | some c1 =>
          simp only [Option.some_bind, Option.map_some']
          constructor
          · rintro ⟨e, he⟩
            exact absurd he (by simp)
          · rintro (h | h | h | h | h)
            · exact absurd h (by tauto)
            · exact absurd h (by tauto)
            · exact absurd h hlen
            · exact absurd h (by simp)
            · exact absurd h (by simp)

/-- C1 (amended): on a request whose marginal-cost keys all parse — the
embedding's parse succeeds exactly on plain decimal-digit keys, a domain
where Python's `int()` returns the same values — the /equilibrium/cournot
handler rejects exactly when the demand intercept is ≤ 0, the demand
slope is ≤ 0, or the parsed integer-keyed cost dict does not consist of
exactly the two firm ids 0 and 1.  The theorem says nothing about which
other key spellings `int()` accepts; the claim as stated — failure iff
a ≤ 0, b ≤ 0 or the request mapping's size differs from 2 — is refuted
by `cournot_claimed_size_condition_cex`, whose key "x" makes `int()`
raise. -/
theorem cournot_error_iff_amended (req : CournotEquilibriumRequest)
    (d : List (Nat × ℚ)) (hd : pyIntKeyDict req.marginal_costs = some d) :
    (∃ e, compute_cournot_equilibrium req = .error e) ↔
      (req.demand_intercept ≤ 0 ∨ req.demand_slope ≤ 0 ∨
        d.length ≠ 2 ∨ dget d 0 = none ∨ dget d 1 = none) := by
  unfold compute_cournot_equilibrium
  rw [hd]
  dsimp only
  cases hc : (CournotGame.mk
      [⟨0, "Firm 1", some .dummy⟩, ⟨1, "Firm 2", some .dummy⟩]
      req.demand_intercept req.demand_slope d).compute_equilibrium with
  | error e =>
    have hcond := (compute_equilibrium_two_firm_error_iff
      req.demand_intercept req.demand_slope d).mp ⟨e, hc⟩
    simp only [Except.error.injEq, exists_eq', true_iff]
    exact hcond
  | ok eq =>
    constructor
    · rintro ⟨e, he⟩
      exact absurd he (by simp)
    · intro hcond
      rcases (compute_equilibrium_two_firm_error_iff
        req.demand_intercept req.demand_slope d).mpr hcond with ⟨e, he⟩
      rw [hc] at he
      exact absurd he (by simp)

/-- Witness for C1 (amended): the well-formed request with costs for
firms 0 and 1 under a = 100, b = 1 is accepted, while the request whose
parsed ids are 5 and 1 is rejected. -/
theorem cournot_error_iff_amended_witness :
    (¬ ∃ e, compute_cournot_equilibrium
      ⟨100, 1, [("0", 10), ("1", 10)]⟩ = .error e) ∧
    (∃ e, compute_cournot_equilibrium
      ⟨100, 1, [("5", 10), ("1", 10)]⟩ = .error e) := by
  constructor
  · intro herr
    have h := (cournot_error_iff_amended ⟨100, 1, [("0", 10), ("1", 10)]⟩
      [(0, 10), (1, 10)] (by rfl)).mp herr
    exact absurd h (by decide)
  · exact (cournot_error_iff_amended ⟨100, 1, [("5", 10), ("1", 10)]⟩
      [(5, 10), (1, 10)] (by rfl)).mpr (by decide)

/-- Counterexample to C1 as stated: the request with a = 100 > 0,
b = 1 > 0 and the size-2 marginal-cost mapping \x7b"x": 5, "0": 1\x7d is
rejected (the key "x" is not an integer literal), although the claim's
condition — a ≤ 0, b ≤ 0, or mapping size other than 2 — does not hold. -/
theorem cournot_claimed_size_condition_cex :
    (∃ e, compute_cournot_equilibrium
      ⟨100, 1, [("x", 5), ("0", 1)]⟩ = .error e) ∧
    ¬((100 : ℚ) ≤ 0) ∧ ¬((1 : ℚ) ≤ 0) ∧
    ([(("x" : String), (5 : ℚ)), ("0", 1)].length = 2) := by
  refine ⟨⟨"Invalid request: invalid literal for int with base 10", ?_⟩,
    by norm_num, by norm_num, rfl⟩
  rfl

/-- Witness for C6: the unregistered strategy name "Foo" and the
unregistered game type "chess" are rejected with messages naming them,
and the registered name "TitForTat" resolves. -/
theorem factory_miss_spec_witness :
    create_strategy "Foo" = .error ("Unknown strategy: " ++ "Foo") ∧
    create_strategy "TitForTat" = .ok .titForTat ∧
    create_game_from_template "chess" GameParams.emptyParams none none
      = .error ("Unknown game type: " ++ "chess") := by
  have h := factory_miss_spec
  exact ⟨h.1 "Foo" (by decide), h.2.1.2.2.1,
    h.2.2 "chess" GameParams.emptyParams none none (by decide)⟩

/-! ## Claim C10 -/

/-- C10: when demand parameters are absent, the Cournot boundary uses the
fixed defaults — create_game_from_template builds the game with
demand_intercept 100 and demand_slope 1 when the params dict lacks them,
CournotEquilibriumRequest declares the same defaults for its fields, and
an equilibrium query carrying only marginal costs is priced by
P(Q) = 100 − Q. -/
theorem cournot_default_parameters :
    (∀ (costs : Option (List (Nat × ℚ))) (names : Option (List String)),
      create_game_from_template "cournot"
          ⟨none, none, none, costs, none, none⟩ names none
        = .ok (.cournot (create_cournot_game names 100 1 costs))) ∧
    (∀ costs : List (String × ℚ),
      (CournotEquilibriumRequest.withDefaults costs).demand_intercept = 100 ∧
      (CournotEquilibriumRequest.withDefaults costs).demand_slope = 1) ∧
    (∀ (costs : List (String × ℚ)) (resp : CournotEquilibriumResponse),
      compute_cournot_equilibrium (CournotEquilibriumRequest.withDefaults costs)
          = .ok resp →
      resp.equilibrium_price
        = 100 - (resp.equilibrium_quantities.map Prod.snd).sum) := by
  refine ⟨fun costs names => rfl, fun costs => ⟨rfl, rfl⟩, ?_⟩
  intro costs resp h
  unfold compute_cournot_equilibrium CournotEquilibriumRequest.withDefaults at h
  dsimp only at h
  cases hp : pyIntKeyDict costs with
  | none =>
    rw [hp] at h
    exact absurd h (by simp)
  | some d =>
    rw [hp] at h
    dsimp only at h
    cases hc : (CournotGame.mk
        [⟨0, "Firm 1", some .dummy⟩, ⟨1, "Firm 2", some .dummy⟩]
        100 1 d).compute_equilibrium with
    | error e =>
      rw [hc] at h
      exact absurd h (by simp)
    | ok eq =>
      rw [hc] at h
      have hresp : resp = ⟨eq.quantities.map (fun p => (natKey p.1, p.2)),
          eq.price, eq.payoffs.map (fun p => (natKey p.1, p.2))⟩ := by
        cases h
        rfl
      subst hresp
      unfold CournotGame.compute_equilibrium at hc
      dsimp only at hc
      rw [if_neg (by norm_num)] at hc
      by_cases hlen : d.length ≠ 2
      · rw [if_pos (by simpa using hlen)] at hc
        exact absurd hc (by simp)
      · rw [if_neg (by simpa using hlen)] at hc
        cases hl : lookupCosts d
            [⟨0, "Firm 1", some .dummy⟩, ⟨1, "Firm 2", some .dummy⟩] with
        | none =>
          rw [hl] at hc
          exact absurd hc (by simp)
        | some costList =>
          rw [hl] at hc
          dsimp only at hc
          have heq : eq = ⟨cournotSolve 100 1 costList,
              100 - 1 * ((cournotSolve 100 1 costList).map Prod.snd).sum,
              List.zipWith (fun (cp : Nat × ℚ) (qp : Nat × ℚ) =>
                (cp.1, (100 - 1 * ((cournotSolve 100 1 costList).map
                  Prod.snd).sum - cp.2) * qp.2)) costList
                (cournotSolve 100 1 costList)⟩ := by
            cases hc
            rfl
          subst heq
          dsimp only
          rw [List.map_map]
          have hcomp : (Prod.snd ∘ fun p : Nat × ℚ => (natKey p.1, p.2))
              = Prod.snd := rfl
          rw [hcomp]
          ring

/-- Witness for C10 on the spec's worked duopoly: costs 10 and 10 under
the default demand P(Q) = 100 − Q give quantities 30 and 30, price 40 and
profits 900, and the price satisfies 100 minus total quantity. -/
theorem cournot_default_parameters_witness :
    compute_cournot_equilibrium
        (CournotEquilibriumRequest.withDefaults [("0", 10), ("1", 10)])
      = .ok ⟨[("0", 30), ("1", 30)], 40, [("0", 900), ("1", 900)]⟩ ∧
    (40 : ℚ) = 100 - (([("0", (30 : ℚ)), ("1", 30)]).map Prod.snd).sum := by
  have hok : compute_cournot_equilibrium
      (CournotEquilibriumRequest.withDefaults [("0", 10), ("1", 10)])
      = .ok ⟨[("0", 30), ("1", 30)], 40, [("0", 900), ("1", 900)]⟩ := by
    have hp : pyIntKeyDict ([("0", (10 : ℚ)), ("1", 10)])
        = some [(0, 10), (1, 10)] := rfl
    have hfix : clipPass 100 1 [(0, (10 : ℚ)), (1, 10)] = [(0, 10), (1, 10)] := by
      norm_num [clipPass, cournotUnconstrained]
    have hsolve : cournotSolve 100 1 [(0, (10 : ℚ)), (1, 10)]
        = [(0, 30), (1, 30)] := by
      unfold cournotSolve
      rw [Function.iterate_fixed hfix]
      norm_num [cournotUnconstrained, dget]
    have hl : lookupCosts [(0, (10 : ℚ)), (1, 10)]
        [⟨0, "Firm 1", some .dummy⟩, ⟨1, "Firm 2", some .dummy⟩]
        = some [(0, 10), (1, 10)] := rfl
    unfold compute_cournot_equilibrium CournotEquilibriumRequest.withDefaults
    rw [hp]
    dsimp only
    unfold CournotGame.compute_equilibrium
    dsimp only
    rw [if_neg (by norm_num), if_neg (by norm_num), hl]
    dsimp only
    rw [hsolve]
    norm_num [natKey]
    exact ⟨rfl, rfl⟩
  refine ⟨hok, ?_⟩
  have h := (cournot_default_parameters.2.2) [("0", 10), ("1", 10)]
    ⟨[("0", 30), ("1", 30)], 40, [("0", 900), ("1", 900)]⟩ hok
  simpa using h

/-! ## Claim C2 -/

theorem buildInnerAux_dget_not_mem (vals : List ℚ) (ids : List Nat)
    (idx : Nat) (acc inner : List (Nat × ℚ))
    (h : buildInnerAux vals ids idx acc = some inner)
    (i : Nat) (hni : i ∉ ids) : dget inner i = dget acc i := by
  induction ids generalizing idx acc with
  | nil =>
    rw [buildInnerAux] at h
    cases h
    rfl
  | cons j rest ih =>
    rw [buildInnerAux] at h
    cases hv : vals.get? idx with
    | none =>
      rw [hv] at h
      exact absurd h (by simp)
    | some v =>
      rw [hv] at h
      simp only [Option.some_bind] at h
      have hskip := ih (idx + 1) (dset acc j v) h
        (fun hmem => hni (List.mem_cons_of_mem j hmem))
      rw [hskip, dget_dset_other]
      exact fun hij => hni (hij ▸ List.mem_cons_self j rest)

theorem buildInnerAux_dget_get (vals : List ℚ) (ids : List Nat)
    (idx : Nat) (acc inner : List (Nat × ℚ)) (hnd : ids.Nodup)
    (h : buildInnerAux vals ids idx acc = some inner)
    (k : Nat) (hk : k < ids.length) :
    dget inner (ids.get ⟨k, hk⟩) = vals.get? (idx + k) := by
  induction ids generalizing idx acc k with
  | nil => exact absurd hk (by simp)
  | cons j rest ih =>
    rw [buildInnerAux] at h
    cases hv : vals.get? idx with
    | none =>
      rw [hv] at h
      exact absurd h (by simp)
    | some v =>
      rw [hv] at h
      simp only [Option.some_bind] at h
      cases k with
      | zero =>
        have hji : j ∉ rest := (List.nodup_cons.mp hnd).1
        have hskip := buildInnerAux_dget_not_mem vals rest (idx + 1)
          (dset acc j v) inner h j hji
        show dget inner j = vals.get? (idx + 0)
        rw [hskip, dget_dset_same, Nat.add_zero, hv]
      | succ k' =>
        have hrec := ih (idx + 1) (dset acc j v) (List.nodup_cons.mp hnd).2 h
          k' (Nat.lt_of_succ_lt_succ hk)
        show dget inner (rest.get ⟨k', Nat.lt_of_succ_lt_succ hk⟩)
          = vals.get? (idx + (k' + 1))
        rw [show idx + (k' + 1) = idx + 1 + k' from by omega]
        exact hrec

theorem foldlM_payoffStep_not_mem (ids : List Nat)
    (pm : List (String × List ℚ))
    (acc out : List (List String × List (Nat × ℚ)))
    (h : pm.foldlM (payoffStep ids) acc = some out) (prof : List String)
    (hni : prof ∉ pm.map (fun p => pySplitComma p.1)) :
    dget out prof = dget acc prof := by
  induction pm generalizing acc with
  | nil =>
    rw [List.foldlM_nil] at h
    cases h
    rfl
  | cons p rest ih =>
    rw [List.foldlM_cons] at h
    cases hbi : buildInner p.2 ids with
    | none =>
      rw [payoffStep, hbi] at h
      exact absurd h (by simp)
    | some inner =>
      rw [payoffStep, hbi] at h
      simp only [Option.map_some', Option.some_bind] at h
      have hskip := ih (dset acc (pySplitComma p.1) inner) h
        (fun hmem => hni (List.mem_cons_of_mem _ hmem))
      rw [hskip, dget_dset_other]
      exact fun hpp => hni (hpp ▸ List.mem_cons_self _ _)

theorem foldlM_payoffStep_mem (ids : List Nat)
    (pm : List (String × List ℚ))
    (acc out : List (List String × List (Nat × ℚ)))
    (h : pm.foldlM (payoffStep ids) acc = some out)
    (hkeys : (pm.map (fun p => pySplitComma p.1)).Nodup)
    (key : String) (vals : List ℚ) (hmem : (key, vals) ∈ pm) :
    ∃ inner, buildInner vals ids = some inner ∧
      dget out (pySplitComma key) = some inner := by
  induction pm generalizing acc with
  | nil => exact absurd hmem (by simp)
  | cons p rest ih =>
    rw [List.foldlM_cons] at h
    cases hbi : buildInner p.2 ids with
    | none =>
      rw [payoffStep, hbi] at h
      exact absurd h (by simp)
    | some inner =>
      rw [payoffStep, hbi] at h
      simp only [Option.map_some', Option.some_bind] at h
      rcases List.mem_cons.mp hmem with hmem | hmem
      · have hp : p = (key, vals) := hmem.symm
        subst hp
        refine ⟨inner, hbi, ?_⟩
        have hni : pySplitComma key ∉ rest.map (fun p => pySplitComma p.1) := by
          have := (List.nodup_cons.mp hkeys).1
          simpa using this
        rw [foldlM_payoffStep_not_mem ids rest _ out h _ hni, dget_dset_same]
      · exact ih (dset acc (pySplitComma p.1) inner) h
          (List.nodup_cons.mp hkeys).2 hmem

/-- C2 (amended): when the Nash and best-response handlers reconstruct a
game from a request whose player_actions keys parse to pairwise-distinct
integers and whose payoff-matrix keys split to distinct profiles, the
player ids are sorted ascending, each payoff key is split on commas into
the profile, and the k-th payoff of the request's value list is assigned
to the k-th smallest player id.  (Without the distinctness proviso the
claim as stated fails: see `nash_reconstruction_cex`.) -/
theorem nash_reconstruction_amended (req : NashEquilibriumRequest)
    (out : ParsedNashGame) (hout : parseNashRequest req = some out)
    (hnodup : out.player_ids.Nodup)
    (hkeys : (req.payoff_matrix.map (fun p => pySplitComma p.1)).Nodup) :
    List.Sorted (· ≤ ·) out.player_ids ∧
    ∀ (key : String) (vals : List ℚ), (key, vals) ∈ req.payoff_matrix →
      ∀ (k : Nat) (hk : k < out.player_ids.length),
        (dget out.payoff_matrix (pySplitComma key)).bind
            (fun inner => dget inner (out.player_ids.get ⟨k, hk⟩))
          = vals.get? k := by
  unfold parseNashRequest at hout
  cases hraw : req.player_actions.mapM (fun p => pyParseNat p.1) with
  | none =>
    rw [hraw] at hout
    exact absurd hout (by simp)
  | some rawIds =>
    rw [hraw] at hout
    simp only [Option.some_bind] at hout
    cases hacts : buildActions req.player_actions (pySorted rawIds) with
    | none =>
      rw [hacts] at hout
      exact absurd hout (by simp)
    | some acts =>
      rw [hacts] at hout
      simp only [Option.some_bind] at hout
      cases hpm : buildPayoffMatrix (pySorted rawIds) req.payoff_matrix with
      | none =>
        rw [hpm] at hout
        exact absurd hout (by simp)
      | some pm =>
        rw [hpm] at hout
        simp only [Option.map_some'] at hout
        cases hout
        constructor
        · exact List.sorted_insertionSort (· ≤ ·) rawIds
        · intro key vals hmem k hk
          rcases foldlM_payoffStep_mem (pySorted rawIds) req.payoff_matrix
            [] pm hpm hkeys key vals hmem with ⟨inner, hinner, hdget⟩
          rw [hdget]
          simp only [Option.some_bind]
          have := buildInnerAux_dget_get vals (pySorted rawIds) 0 [] inner
            hnodup hinner k hk
          simpa using this

/-- Witness for C2 (amended) on the Prisoners' Dilemma request: the
parsed ids are sorted, and the payoff key "C,D" assigns the 1-st payoff
5 to player id 1. -/
theorem nash_reconstruction_amended_witness :
    List.Sorted (· ≤ ·) ([0, 1] : List Nat) ∧
    (dget [((["C", "C"] : List String), [((0 : Nat), (3 : ℚ)), (1, 3)]),
        (["C", "D"], [(0, 0), (1, 5)]),
        (["D", "C"], [(0, 5), (1, 0)]),
        (["D", "D"], [(0, 1), (1, 1)])] (pySplitComma "C,D")).bind
      (fun inner => dget inner 1) = some (5 : ℚ) := by
  have h := nash_reconstruction_amended
    ⟨[("C,C", [3, 3]), ("C,D", [0, 5]), ("D,C", [5, 0]), ("D,D", [1, 1])],
      [("0", ["C", "D"]), ("1", ["C", "D"])]⟩
    ⟨[0, 1], [(0, ["C", "D"]), (1, ["C", "D"])],
      [((["C", "C"] : List String), [((0 : Nat), (3 : ℚ)), (1, 3)]),
        (["C", "D"], [(0, 0), (1, 5)]),
        (["D", "C"], [(0, 5), (1, 0)]),
        (["D", "D"], [(0, 1), (1, 1)])]⟩
    (by rfl) (by decide) (by decide)
  refine ⟨h.1, ?_⟩
  have h2 := h.2 "C,D" [0, 5] (by simp) 1 (by decide)
  simpa using h2

/-! ## Claim C8 -/

/-- C8: on the two-player Prisoners' Dilemma with payoffs CC=(3,3),
CD=(0,5), DC=(5,0), DD=(1,1), find_all_nash returns pure equilibria
exactly [(D,D)] and an empty mixed list. -/
theorem find_all_nash_prisoners_dilemma :
    find_all_nash (create_prisoners_dilemma none none none)
      = ⟨[["D", "D"]], []⟩ := by
  have hpure : findPureNash (create_prisoners_dilemma none none none)
      = [["D", "D"]] := by decide
  have hmixed : findMixedNash2x2 (create_prisoners_dilemma none none none)
      = [] := by
    have hids : (create_prisoners_dilemma none none none).players.map
        (fun p => p.id) = [0, 1] := rfl
    have ha0 : actionsOf (create_prisoners_dilemma none none none) 0
        = ["C", "D"] := rfl
    have ha1 : actionsOf (create_prisoners_dilemma none none none) 1
        = ["C", "D"] := rfl
    have hcc0 : payoffOf (create_prisoners_dilemma none none none) ["C", "C"] 0
        = 3 := rfl
    have hcd0 : payoffOf (create_prisoners_dilemma none none none) ["C", "D"] 0
        = 0 := rfl
    have hdc0 : payoffOf (create_prisoners_dilemma none none none) ["D", "C"] 0
        = 5 := rfl
    have hdd0 : payoffOf (create_prisoners_dilemma none none none) ["D", "D"] 0
        = 1 := rfl
    have hcc1 : payoffOf (create_prisoners_dilemma none none none) ["C", "C"] 1
        = 3 := rfl
    have hcd1 : payoffOf (create_prisoners_dilemma none none none) ["C", "D"] 1
        = 5 := rfl
    have hdc1 : payoffOf (create_prisoners_dilemma none none none) ["D", "C"] 1
        = 0 := rfl
    have hdd1 : payoffOf (create_prisoners_dilemma none none none) ["D", "D"] 1
        = 1 := rfl
    unfold findMixedNash2x2
    rw [hids]
    dsimp only
    rw [ha0, ha1]
    dsimp only
    rw [hcc0, hcd0, hdc0, hdd0, hcc1, hcd1, hdc1, hdd1]
    rw [if_neg (by norm_num)]
    rw [if_neg (by norm_num)]
  unfold find_all_nash
  rw [hpure, if_pos (by rfl), hmixed]

/-- Counterexample to C2 as stated: with player_actions keys "0" and
"00", both parsing to player id 0, the reconstruction succeeds but the
0-th payoff 3 of the key "C,C" is not assigned to the 0-th smallest
player id — the built dict carries 5 there (the index-1 payoff
overwrites it), and 3 ≠ 5. -/
theorem nash_reconstruction_cex :
    parseNashRequest ⟨[("C,C", [3, 5])], [("0", ["C", "D"]), ("00", ["C", "D"])]⟩
      = some ⟨[0, 0], [(0, ["C", "D"])], [(["C", "C"], [(0, 5)])]⟩ ∧
    ((3 : ℚ) ≠ 5) := by
  constructor
  · rfl
  · norm_num

/-! ## Claim C3 -/

/-- C3: the three analysis handlers compute their response from the
request body alone — for any two session-store states the same request
produces the same response, and the store is returned unchanged (they
neither read nor modify any stored session). -/
theorem analysis_handlers_ignore_sessions
    (st1 st2 : SessionManager GameInst)
    (nreq : NashEquilibriumRequest) (creq : CournotEquilibriumRequest)
    (breq : NashEquilibriumRequest) :
    ((nash_handler_app st1 nreq).1 = (nash_handler_app st2 nreq).1 ∧
      (nash_handler_app st1 nreq).2 = st1) ∧
    ((cournot_handler_app st1 creq).1 = (cournot_handler_app st2 creq).1 ∧
      (cournot_handler_app st1 creq).2 = st1) ∧
    ((best_response_handler_app st1 breq).1
        = (best_response_handler_app st2 breq).1 ∧
      (best_response_handler_app st1 breq).2 = st1) :=
  ⟨⟨rfl, rfl⟩, ⟨rfl, rfl⟩, ⟨rfl, rfl⟩⟩

/-! ## Claim C7 -/

/-- C7: the play-round handler parses every player-id key of the
request's actions to an integer before the game is invoked, and on
success keys every per-player payoff of the response — and of every
serialized history entry — by the player id rendered back to its decimal
string, with the numeric payoff values unchanged. -/
theorem play_round_handler_string_keys (g : NormalFormGame)
    (req : PlayRoundRequest) (acts : List (Nat × String))
    (hparse : pyIntKeyDict req.actions = some acts)
    (pr : List (Nat × ℚ) × NormalFormGame)
    (hplay : g.play_round acts = .ok pr) :
    play_round_handler g req
      = .ok ⟨pr.1.map (fun p => (natKey p.1, p.2)), pr.2,
          pr.2.history.map
            (fun e => ⟨e.1, e.2.map (fun q => (natKey q.1, q.2))⟩)⟩ ∧
    ∀ pid val, (pid, val) ∈ pr.1 →
      (natKey pid, val) ∈ pr.1.map (fun p => (natKey p.1, p.2)) := by
  constructor
  · unfold play_round_handler
    rw [hparse]
    dsimp only
    rw [hplay]
  · intro pid val hmem
    exact List.mem_map_of_mem _ hmem

/-- Witness for C7: playing (C, D) in a fresh Prisoners' Dilemma
produces payoffs keyed "0" and "1" with the table values 0 and 5. -/
theorem play_round_handler_string_keys_witness :
    play_round_handler (create_prisoners_dilemma none none none)
        ⟨[("0", "C"), ("1", "D")]⟩
      = .ok ⟨[("0", 0), ("1", 5)],
          { create_prisoners_dilemma none none none with
            history := [(["C", "D"], [(0, 0), (1, 5)])] },
          [⟨["C", "D"], [("0", 0), ("1", 5)]⟩]⟩ := by
  have h := play_round_handler_string_keys
    (create_prisoners_dilemma none none none)
    ⟨[("0", "C"), ("1", "D")]⟩ [(0, "C"), (1, "D")] (by rfl)
    ([(0, 0), (1, 5)],
      { create_prisoners_dilemma none none none with
        history := [(["C", "D"], [(0, 0), (1, 5)])] }) (by rfl)
  exact h.1

/-! ## Claim C9 -/

/-- C9: the simulate endpoint always invokes simulate_repeated_game with
reset_between_runs=False (the request model carries no reset field), and
under reset_between_runs=False the round-0 strategy queries of a
successful run are made against the game's pre-existing history — the
run continues from it rather than clearing it. -/
theorem simulate_endpoint_continues_history :
    (∀ (g : NormalFormGame) (req : SimulateRequest)
      (rand : Nat → Nat → Nat),
      simulate_handler g req rand
        = serializeSimResult (simulate_repeated_game g req.num_rounds
            req.discount_factor false rand)) ∧
    (∀ (g : NormalFormGame) (n : Nat) (d : Option ℚ)
      (rand : Nat → Nat → Nat) (res : SimResult), 0 < n →
      simulate_repeated_game g n d false rand = .ok res →
      ∃ acts, chooseActions g (rand 0) = .ok acts ∧
        res.strategy_history.head? = some acts) := by
  refine ⟨fun g req rand => rfl, ?_⟩
  intro g n d rand res hn hsim
  cases n with
  | zero => exact absurd hn (by simp)
  | succ m =>
    unfold simulate_repeated_game at hsim
    dsimp only at hsim
    simp only [Bool.false_eq_true, if_false] at hsim
    rw [runRounds] at hsim
    cases hch : chooseActions g (rand 0) with
    | error e =>
      rw [hch] at hsim
      exact absurd hsim (by simp [Except.bind, Except.map])
    | ok acts =>
      rw [hch] at hsim
      dsimp only [Except.bind] at hsim
      cases hpl : g.play_round acts with
      | error e =>
        rw [hpl] at hsim
        exact absurd hsim (by simp [Except.bind, Except.map])
      | ok pr =>
        rw [hpl] at hsim
        dsimp only [Except.bind] at hsim
        cases hrr : runRounds rand d (0 + 1) m pr.2 with
        | error e =>
          rw [hrr] at hsim
          exact absurd hsim (by simp [Except.map])
        | ok rest =>
          rw [hrr] at hsim
          dsimp only [Except.map] at hsim
          cases hsim
          exact ⟨acts, rfl, rfl⟩

/-- Witness for C9: one continued round on the fixture game — TitForTat
sees the stored (D,D) round and defects, so round 0 is (D,D). -/
theorem simulate_endpoint_continues_history_witness :
    (0 : Nat) < 1 ∧
    simulate_repeated_game simWitnessGame 1 none false (fun _ _ => 0)
      = .ok simWitnessResult ∧
    ∃ acts, chooseActions simWitnessGame ((fun _ _ => (0 : Nat)) 0) = .ok acts ∧
      simWitnessResult.strategy_history.head? = some acts := by
  have hsim0 : simulate_repeated_game simWitnessGame 1 none false
      (fun _ _ => 0)
      = .ok ⟨[(["D", "D"], [(0, 1), (1, 1)])],
          addPayoffs [(0, 0), (1, 0)] [(0, 1), (1, 1)] 1, none,
          [[(0, "D"), (1, "D")]]⟩ := rfl
  have haddp : addPayoffs [(0, (0 : ℚ)), (1, 0)] [(0, 1), (1, 1)] 1
      = [(0, 1), (1, 1)] := by
    norm_num [addPayoffs, dget]
  have hsim : simulate_repeated_game simWitnessGame 1 none false
      (fun _ _ => 0) = .ok simWitnessResult := by
    rw [hsim0, haddp]
    rfl
  exact ⟨by decide, hsim,
    simulate_endpoint_continues_history.2 simWitnessGame 1 none
      (fun _ _ => 0) simWitnessResult (by decide) hsim⟩

end GameTheoryBackend
